import Mathlib

/-!
Verification of the stock-predictor core: a shallow embedding of the
logistic-regression trainer, min-max normalizer and predictor
(src/utils/ml.ts) and of the feature-extraction pipeline of
StockPredictor.tsx, together with proofs about the embedded code.

JavaScript numbers are modelled as exact reals extended with the IEEE
special values Infinity, -Infinity and NaN.  Rounding of binary floating
point is idealized away (arithmetic is exact), but the special-value
semantics of the JavaScript operators (NaN propagation, division by
zero producing infinities, NaN-rejecting comparisons) is kept.
-/

/-- A JavaScript number: a finite real, one of the two infinities, or NaN. -/
inductive JsNum where
  | fin (x : ℝ)
  | inf
  | ninf
  | nan

namespace JsNum

/-- The JavaScript isNaN test on a number. -/
def isNaN : JsNum → Bool
  | nan => true
  | _ => false

/-- JavaScript addition. -/
noncomputable def add : JsNum → JsNum → JsNum
  | nan, _ => nan
  | _, nan => nan
  | inf, ninf => nan
  | ninf, inf => nan
  | inf, _ => inf
  | _, inf => inf
  | ninf, _ => ninf
  | _, ninf => ninf
  | fin x, fin y => fin (x + y)

/-- JavaScript unary minus. -/
noncomputable def neg : JsNum → JsNum
  | nan => nan
  | inf => ninf
  | ninf => inf
  | fin x => fin (-x)

/-- JavaScript subtraction. -/
noncomputable def sub (a b : JsNum) : JsNum := add a (neg b)

/-- JavaScript multiplication. -/
noncomputable def mul : JsNum → JsNum → JsNum
  | nan, _ => nan
  | _, nan => nan
  | inf, inf => inf
  | inf, ninf => ninf
  | ninf, inf => ninf
  | ninf, ninf => inf
  | inf, fin y => if y = 0 then nan else if 0 < y then inf else ninf
  | fin x, inf => if x = 0 then nan else if 0 < x then inf else ninf
  | ninf, fin y => if y = 0 then nan else if 0 < y then ninf else inf
  | fin x, ninf => if x = 0 then nan else if 0 < x then ninf else inf
  | fin x, fin y => fin (x * y)

/-- JavaScript division (signed zeros are collapsed to a single zero). -/
noncomputable def div : JsNum → JsNum → JsNum
  | nan, _ => nan
  | _, nan => nan
  | inf, inf => nan
  | inf, ninf => nan
  | ninf, inf => nan
  | ninf, ninf => nan
  | inf, fin y => if 0 ≤ y then inf else ninf
  | ninf, fin y => if 0 ≤ y then ninf else inf
  | fin _, inf => fin 0
  | fin _, ninf => fin 0
  | fin x, fin y =>
    if y = 0 then (if x = 0 then nan else if 0 < x then inf else ninf)
    else fin (x / y)

/-- JavaScript Math.abs. -/
noncomputable def abs : JsNum → JsNum
  | nan => nan
  | inf => inf
  | ninf => inf
  | fin x => fin |x|

/-- JavaScript Math.exp. -/
noncomputable def exp : JsNum → JsNum
  | nan => nan
  | inf => inf
  | ninf => fin 0
  | fin x => fin (Real.exp x)

/-- JavaScript Math.log. -/
noncomputable def log : JsNum → JsNum
  | nan => nan
  | inf => inf
  | ninf => nan
  | fin x => if x = 0 then ninf else if x < 0 then nan else fin (Real.log x)

/-- JavaScript Math.sqrt. -/
noncomputable def sqrt : JsNum → JsNum
  | nan => nan
  | inf => inf
  | ninf => nan
  | fin x => if x < 0 then nan else fin (Real.sqrt x)

/-- JavaScript Math.round: half-way cases round up (toward plus infinity). -/
noncomputable def rnd : JsNum → JsNum
  | nan => nan
  | inf => inf
  | ninf => ninf
  | fin x => fin ((round x : ℤ) : ℝ)

/-- The binary JavaScript Math.min (NaN-propagating). -/
noncomputable def min2 : JsNum → JsNum → JsNum
  | nan, _ => nan
  | _, nan => nan
  | ninf, _ => ninf
  | _, ninf => ninf
  | inf, b => b
  | a, inf => a
  | fin x, fin y => fin (min x y)

/-- The binary JavaScript Math.max (NaN-propagating). -/
noncomputable def max2 : JsNum → JsNum → JsNum
  | nan, _ => nan
  | _, nan => nan
  | inf, _ => inf
  | _, inf => inf
  | ninf, b => b
  | a, ninf => a
  | fin x, fin y => fin (max x y)

/-- The JavaScript strict comparison a < b (false when either side is NaN). -/
noncomputable def ltb : JsNum → JsNum → Bool
  | nan, _ => false
  | _, nan => false
  | inf, _ => false
  | _, inf => true
  | ninf, ninf => false
  | ninf, _ => true
  | _, ninf => false
  | fin x, fin y => decide (x < y)

/-- The JavaScript comparison a > b (false when either side is NaN). -/
noncomputable def gtb (a b : JsNum) : Bool := ltb b a

/-- The JavaScript comparison a >= b (false when either side is NaN). -/
noncomputable def geb : JsNum → JsNum → Bool
  | nan, _ => false
  | _, nan => false
  | inf, _ => true
  | _, inf => false
  | ninf, ninf => true
  | _, ninf => true
  | ninf, _ => false
  | fin x, fin y => decide (y ≤ x)

/-- The JavaScript strict equality a === b on numbers (NaN equals nothing). -/
noncomputable def seq : JsNum → JsNum → Bool
  | fin x, fin y => decide (x = y)
  | inf, inf => true
  | ninf, ninf => true
  | _, _ => false

/-- Truthiness fallback p or 0: the JavaScript expression p or-else 0 maps the
falsy numbers NaN and 0 to 0 and keeps every other number. -/
def orZero : JsNum → JsNum
  | nan => fin 0
  | x => x

@[simp] theorem isNaN_fin (x : ℝ) : (fin x).isNaN = false := rfl
@[simp] theorem isNaN_inf : (inf : JsNum).isNaN = false := rfl
@[simp] theorem isNaN_ninf : (ninf : JsNum).isNaN = false := rfl
@[simp] theorem isNaN_nan : (nan : JsNum).isNaN = true := rfl

@[simp] theorem add_fin_fin (x y : ℝ) : add (fin x) (fin y) = fin (x + y) := rfl
@[simp] theorem neg_fin (x : ℝ) : neg (fin x) = fin (-x) := rfl
@[simp] theorem sub_fin_fin (x y : ℝ) : sub (fin x) (fin y) = fin (x + -y) := rfl
@[simp] theorem mul_fin_fin (x y : ℝ) : mul (fin x) (fin y) = fin (x * y) := rfl
@[simp] theorem abs_fin (x : ℝ) : abs (fin x) = fin |x| := rfl
@[simp] theorem exp_fin (x : ℝ) : exp (fin x) = fin (Real.exp x) := rfl
@[simp] theorem min2_fin_fin (x y : ℝ) : min2 (fin x) (fin y) = fin (min x y) := rfl
@[simp] theorem max2_fin_fin (x y : ℝ) : max2 (fin x) (fin y) = fin (max x y) := rfl
@[simp] theorem ltb_fin_fin (x y : ℝ) : ltb (fin x) (fin y) = decide (x < y) := rfl
@[simp] theorem gtb_fin_fin (x y : ℝ) : gtb (fin x) (fin y) = decide (y < x) := rfl
@[simp] theorem geb_fin_fin (x y : ℝ) : geb (fin x) (fin y) = decide (y ≤ x) := rfl
@[simp] theorem seq_fin_fin (x y : ℝ) : seq (fin x) (fin y) = decide (x = y) := rfl
@[simp] theorem orZero_fin (x : ℝ) : orZero (fin x) = fin x := rfl
@[simp] theorem orZero_nan : orZero nan = fin 0 := rfl
@[simp] theorem rnd_fin (x : ℝ) : rnd (fin x) = fin ((round x : ℤ) : ℝ) := rfl

@[simp] theorem div_fin_fin_of_ne (x y : ℝ) (h : y ≠ 0) :
    div (fin x) (fin y) = fin (x / y) := by
  simp [div, h]

@[simp] theorem sqrt_fin_of_nonneg (x : ℝ) (h : 0 ≤ x) :
    sqrt (fin x) = fin (Real.sqrt x) := by
  simp [sqrt, not_lt.mpr h]

theorem div_zero_zero : div (fin 0) (fin 0) = nan := by simp [div]

theorem div_pos_zero (x : ℝ) (hx : 0 < x) : div (fin x) (fin 0) = inf := by
  simp [div, hx, ne_of_gt hx]

end JsNum

open JsNum

/-- The min/max pair stored per feature (type NormalizationParams in ml.ts). -/
structure NormalizationParams where
  min : JsNum
  max : JsNum

/-- The two possible predicted directions (the string union in ml.ts). -/
inductive Direction where
  | up
  | down
  deriving DecidableEq

/-- The record returned by predict (type PredictionResult in ml.ts). -/
structure PredictionResult where
  probability : JsNum
  prediction : Direction

/-- The trained model returned by trainModel: weights plus per-feature
normalization parameters. -/
structure Model where
  theta : List JsNum
  normalizationParams : List NormalizationParams

/-- JavaScript Math.min spread over a list of numbers. -/
noncomputable def jsMinList (l : List JsNum) : JsNum := l.foldl min2 inf

/-- JavaScript Math.max spread over a list of numbers. -/
noncomputable def jsMaxList (l : List JsNum) : JsNum := l.foldl max2 ninf

/-- The sigmoid function of ml.ts: 1 / (1 + Math.exp (-z)). -/
noncomputable def sigmoid (z : JsNum) : JsNum :=
  div (fin 1) (add (fin 1) (exp (neg z)))

/-- The indexed reduce inside ml.ts that computes the weighted sum
x.reduce of sum + xi * theta at index j, starting from accumulator acc
at index j.  An out-of-range access of theta yields NaN (undefined
arithmetic). -/
noncomputable def weightedSumFrom (theta : List JsNum) : List JsNum → Nat → JsNum → JsNum
  | [], _, acc => acc
  | xi :: rest, j, acc =>
    weightedSumFrom theta rest (j + 1) (add acc (mul xi (theta.getD j nan)))

/-- The weighted sum of a feature row against the weight vector, as computed
by the reduce in ml.ts (initial value 0, index starting at 0). -/
noncomputable def weightedSum (x theta : List JsNum) : JsNum :=
  weightedSumFrom theta x 0 (fin 0)

/-- The indexed reduce inside computeCost accumulating the log-likelihood
terms yi * log h(i) + (1 - yi) * log (1 - h(i)). -/
noncomputable def costSumFrom (h : List JsNum) : List JsNum → Nat → JsNum → JsNum
  | [], _, acc => acc
  | yi :: rest, i, acc =>
    costSumFrom h rest (i + 1)
      (add acc
        (add (mul yi (log (h.getD i nan)))
          (mul (sub (fin 1) yi) (log (sub (fin 1) (h.getD i nan))))))

/-- The cost function of ml.ts (regularized logistic log-loss). -/
noncomputable def computeCost (X : List (List JsNum)) (y theta : List JsNum)
    (lambda : JsNum) : JsNum :=
  let m := X.length
  let h := X.map (fun x => sigmoid (weightedSum x theta))
  let cost := div (costSumFrom h y 0 (fin 0)) (neg (fin (m : ℝ)))
  let regCost :=
    div (mul lambda ((theta.drop 1).foldl (fun s t => add s (mul t t)) (fin 0)))
      (fin (2 * (m : ℝ)))
  add cost regCost

/-- The indexed reduce inside calculateGradient accumulating
(h(i) - y(i)) * x(i)(j) over the example matrix. -/
noncomputable def gradSumFrom (h y : List JsNum) (j : Nat) :
    List (List JsNum) → Nat → JsNum → JsNum
  | [], _, acc => acc
  | x :: rest, i, acc =>
    gradSumFrom h y j rest (i + 1)
      (add acc (mul (sub (h.getD i nan) (y.getD i nan)) (x.getD j nan)))

/-- The gradient computation of ml.ts: per weight j, the averaged error term,
with the L2 term lambda / m * theta(j) added for every j except 0. -/
noncomputable def calculateGradient (X : List (List JsNum)) (y theta : List JsNum)
    (m lambda : JsNum) : List JsNum :=
  let h := X.map (fun x => sigmoid (weightedSum x theta))
  theta.enum.map (fun p =>
    let gradient := mul (div (fin 1) m) (gradSumFrom h y p.1 X 0 (fin 0))
    if p.1 = 0 then gradient else add gradient (mul (div lambda m) (theta.getD p.1 nan)))

/-- The simultaneous weight update of ml.ts:
theta.map of t - learningRate * gradients(j). -/
noncomputable def updateTheta (learningRate : JsNum) (theta gradients : List JsNum) :
    List JsNum :=
  theta.enum.map (fun p => sub p.2 (mul learningRate (gradients.getD p.1 nan)))

/-- Feature scaling of ml.ts (min-max normalization).  The optional second
argument mirrors the optional params argument; a missing argument selects
the branch computing min and max from the data itself. -/
noncomputable def normalizeFeatures (data : List JsNum)
    (params : Option NormalizationParams) : List JsNum :=
  let validData := data.filter (fun x => !x.isNaN)
  if validData.isEmpty then data.map (fun _ => fin (1 / 2))
  else
    match params with
    | some p =>
      if seq p.min p.max then data.map (fun _ => fin (1 / 2))
      else data.map (fun x =>
        if x.isNaN then fin (1 / 2) else div (sub x p.min) (sub p.max p.min))
    | none =>
      let mn := jsMinList validData
      let mx := jsMaxList validData
      if seq mn mx then data.map (fun _ => fin (1 / 2))
      else data.map (fun x =>
        if x.isNaN then fin (1 / 2) else div (sub x mn) (sub mx mn))

/-- One run of the gradient-descent for-loop of trainModel, by fuel on the
remaining iterations.  Returns the final weights together with the number of
gradient updates actually performed.  The noImprovement counter breaks the
loop once it reaches 5. -/
noncomputable def trainLoop (X : List (List JsNum)) (y : List JsNum)
    (learningRate convergenceThreshold lambda m : JsNum) :
    Nat → List JsNum → JsNum → Nat → List JsNum × Nat
  | 0, theta, _, _ => (theta, 0)
  | k + 1, theta, prevCost, noImprovementCount =>
    let gradients := calculateGradient X y theta m lambda
    let theta1 := updateTheta learningRate theta gradients
    let currentCost := computeCost X y theta1 lambda
    let costDiff := abs (sub prevCost currentCost)
    if ltb costDiff convergenceThreshold then
      if 5 ≤ noImprovementCount + 1 then (theta1, 1)
      else
        let r := trainLoop X y learningRate convergenceThreshold lambda m k
          theta1 currentCost (noImprovementCount + 1)
        (r.1, r.2 + 1)
    else
      let r := trainLoop X y learningRate convergenceThreshold lambda m k
        theta1 currentCost 0
      (r.1, r.2 + 1)

/-- trainModel of ml.ts.  A call on an empty feature matrix throws a
TypeError in JavaScript (features(0).length on undefined); this failure is
modelled as none.  Every nonempty input produces a model. -/
noncomputable def trainModel (features : List (List JsNum)) (labels : List JsNum)
    (learningRate : JsNum) (iterations : Nat) (convergenceThreshold : JsNum) :
    Option Model :=
  match features with
  | [] => none
  | f0 :: _ =>
    let m := features.length
    let n := f0.length
    let theta0 : List JsNum := List.replicate n (fin 1)
    let normalizationParams : List NormalizationParams :=
      (List.range n).map (fun j =>
        let featureValues := features.map (fun row => row.getD j nan)
        { min := jsMinList featureValues, max := jsMaxList featureValues })
    let normalizedFeatures := features.map (fun row =>
      row.enum.map (fun p =>
        if p.1 = 0 then fin 1
        else (normalizeFeatures [p.2] (normalizationParams.get? p.1)).getD 0 nan))
    let lambda := fin (1 / 100)
    let r := trainLoop normalizedFeatures labels learningRate convergenceThreshold
      lambda (fin (m : ℝ)) iterations theta0 inf 0
    some { theta := r.1, normalizationParams := normalizationParams }

/-- The per-feature normalization step inside predict: index 0 is forced to
the bias 1, NaN maps to 0.5, and every other value is clamped to the stored
range, normalized, and re-clamped to the unit interval. -/
noncomputable def predictNormalizeFeature (model : Model) (i : Nat) (f : JsNum) :
    JsNum :=
  if i = 0 then fin 1
  else if f.isNaN then fin (1 / 2)
  else
    let params := model.normalizationParams.getD i { min := nan, max := nan }
    let clampedValue := max2 params.min (min2 params.max f)
    let normalized := (normalizeFeatures [clampedValue] (some params)).getD 0 nan
    max2 (fin 0) (min2 (fin 1) normalized)

/-- The normalized feature list computed at the start of predict. -/
noncomputable def predictNormalized (features : List JsNum) (model : Model) :
    List JsNum :=
  features.enum.map (fun p => predictNormalizeFeature model p.1 p.2)

/-- The weighted sum z computed inside predict. -/
noncomputable def predictZ (features : List JsNum) (model : Model) : JsNum :=
  weightedSum (predictNormalized features model) model.theta

/-- predict of ml.ts. -/
noncomputable def predict (features : List JsNum) (model : Model) :
    PredictionResult :=
  let z := predictZ features model
  let probability := max2 (fin 0) (min2 (fin 1) (sigmoid z))
  let scaledProbability := rnd (mul probability (fin 100))
  { probability := scaledProbability
    prediction := if geb probability (fin (1 / 2)) then Direction.up else Direction.down }

/-- One daily observation (interface StockData). -/
structure StockData where
  date : String
  price : JsNum
  volume : JsNum

/-- The indexed reduce computing the price or volume trend in
makePrediction: the accumulator is reset to 0 at index 0 and otherwise
gains +1 when the value rose over its predecessor and -1 otherwise;
arr is the full mapped array closed over by the callback. -/
noncomputable def trendReduceFrom (arr : List JsNum) :
    List JsNum → Nat → JsNum → JsNum
  | [], _, acc => acc
  | v :: rest, idx, acc =>
    trendReduceFrom arr rest (idx + 1)
      (if idx = 0 then fin 0
       else add acc (if gtb v (arr.getD (idx - 1) nan) then fin 1 else fin (-1)))

/-- The trend reduce applied to a whole list, as in makePrediction. -/
noncomputable def trendReduce (arr : List JsNum) : JsNum :=
  trendReduceFrom arr arr 0 (fin 0)

/-- The body of one iteration of the feature-extraction loop of
makePrediction, given the five-day window, the current day and the next
day.  Returns none when the example is skipped (NaN feature check) and
some (featureVector, label) otherwise.  The window access last5Days(4)
would throw in JavaScript when the window is shorter than 5; the loop
bounds make that unreachable, and it is modelled as a skip. -/
noncomputable def buildExample (last5Days : List StockData)
    (currentDay nextDay : StockData) : Option (List JsNum × JsNum) :=
  match last5Days.get? 4 with
  | none => none
  | some day4 =>
    let avgPrice :=
      div (last5Days.foldl (fun sum day => add sum (orZero day.price)) (fin 0)) (fin 5)
    let priceChange := sub currentDay.price day4.price
    let priceChangePercent := mul (div priceChange day4.price) (fin 100)
    let priceVolatility :=
      sqrt (div (last5Days.foldl
        (fun sum day => add sum (mul (sub day.price avgPrice) (sub day.price avgPrice)))
        (fin 0)) (fin 5))
    let avgVolume :=
      div (last5Days.foldl (fun sum day => add sum (orZero day.volume)) (fin 0)) (fin 5)
    let volumeChange := sub currentDay.volume day4.volume
    let volumeChangePercent := mul (div volumeChange day4.volume) (fin 100)
    let priceTrend := div (trendReduce (last5Days.map (fun day => day.price))) (fin 4)
    let volumeTrend := div (trendReduce (last5Days.map (fun day => day.volume))) (fin 4)
    if avgPrice.isNaN || avgVolume.isNaN || priceChange.isNaN || volumeChange.isNaN ||
        priceChangePercent.isNaN || volumeChangePercent.isNaN || priceVolatility.isNaN ||
        priceTrend.isNaN || volumeTrend.isNaN then
      none
    else
      some ([fin 1, avgPrice, avgVolume, priceChange, volumeChange,
        priceChangePercent, volumeChangePercent, priceVolatility,
        priceTrend, volumeTrend],
        if gtb nextDay.price currentDay.price then fin 1 else fin 0)

/-- One iteration of the extraction loop at index i: the window is
stockData.slice (i - 5, i), the current day stockData(i), the next day
stockData(i + 1).  A missing current or next day is a skip (the falsiness
guard in the source). -/
noncomputable def extractStep (stockData : List StockData) (i : Nat) :
    Option (List JsNum × JsNum) :=
  match stockData.get? i, stockData.get? (i + 1) with
  | some currentDay, some nextDay =>
    buildExample ((stockData.drop (i - 5)).take 5) currentDay nextDay
  | _, _ => none

/-- The feature-extraction loop of makePrediction: i runs from 5 to
stockData.length - 2 and each non-skipped iteration pushes one feature
row and one label. -/
noncomputable def extractExamples (stockData : List StockData) :
    List (List JsNum) × List JsNum :=
  let steps := (List.range' 5 (stockData.length - 6)).filterMap (extractStep stockData)
  (steps.map Prod.fst, steps.map Prod.snd)

/-- The training call of makePrediction: abort (producing no model) when
fewer than 2 training examples survived extraction, otherwise call
trainModel with its default hyperparameters (learning rate 0.01,
5000 iterations, convergence threshold 1e-6). -/
noncomputable def makePredictionTrain (features : List (List JsNum))
    (labels : List JsNum) : Option Model :=
  if features.length < 2 then none
  else trainModel features labels (fin (1 / 100)) 5000 (fin (1 / 1000000))

/-- C7: for every bounds pair with min == max (JavaScript strict equality)
and every input value, including NaN and the bound value itself,
normalizeFeatures returns exactly 0.5 at every position. -/
theorem normalizeFeatures_const_bounds (data : List JsNum) (p : NormalizationParams)
    (h : seq p.min p.max = true) :
    normalizeFeatures data (some p) = data.map (fun _ => fin (1 / 2)) := by
  by_cases he : (data.filter (fun x => !x.isNaN)).isEmpty
  · simp [normalizeFeatures, he]
  · simp [normalizeFeatures, he, h]

/-- Witness for C7 at a concrete input: bounds 2/2 and input 3 normalize
to 0.5. -/
theorem normalizeFeatures_const_bounds_witness :
    normalizeFeatures [fin 3] (some { min := fin 2, max := fin 2 }) = [fin (1 / 2)] := by
  rw [normalizeFeatures_const_bounds [fin 3] { min := fin 2, max := fin 2 } (by simp)]
  rfl

/-- C5: the gradient-descent loop of trainModel performs at most as many
gradient updates as its iteration budget, for every training set, weight
vector, previous cost and stall-counter state; the early-stop rule can only
shorten the run. -/
theorem trainLoop_updates_le_iterations (X : List (List JsNum)) (y : List JsNum)
    (learningRate convergenceThreshold lambda m : JsNum) :
    ∀ (iterations : Nat) (theta : List JsNum) (prevCost : JsNum)
      (noImprovementCount : Nat),
      (trainLoop X y learningRate convergenceThreshold lambda m iterations theta
        prevCost noImprovementCount).2 ≤ iterations := by
  intro iterations
  induction iterations with
  | zero => intro theta prevCost c; simp [trainLoop]
  | succ n ih =>
    intro theta prevCost c
    rw [trainLoop]
    split
    · split
      · exact Nat.le_add_left 1 n
      · exact Nat.succ_le_succ (ih _ _ _)
    · exact Nat.succ_le_succ (ih _ _ _)

/-- C1 counterexample: trainModel, called directly with a single training
example (fewer than 2), does not fail: it returns a model. -/
theorem trainModel_single_example_returns_model :
    (trainModel [[fin 1, fin 2]] [fin 1] (fin (1 / 100)) 5000
      (fin (1 / 1000000))).isSome = true := by
  rw [trainModel]
  rfl

/-- C1 (amended): the fewer-than-2-examples check does not live in
trainModel but in its caller makePrediction, which aborts without
training (and without producing any model) whenever fewer than 2
examples survived extraction. -/
theorem makePredictionTrain_insufficient_data (features : List (List JsNum))
    (labels : List JsNum) (h : features.length < 2) :
    makePredictionTrain features labels = none := by
  simp [makePredictionTrain, h]

/-- Witness for the amended C1 at a concrete input: a single extracted
example produces no model. -/
theorem makePredictionTrain_insufficient_data_witness :
    makePredictionTrain [[fin 1, fin 2]] [fin 1] = none :=
  makePredictionTrain_insufficient_data [[fin 1, fin 2]] [fin 1] (by simp)

/-- C3: inside predict, for bounds with min < max and a non-NaN input value,
the per-feature normalization clamps the value to the stored range, rescales,
re-clamps to the unit interval, and therefore always lands in the unit
interval. -/
theorem predictNormalizeFeature_clamped (model : Model) (i : Nat) (v mn mx : ℝ)
    (hi : i ≠ 0)
    (hp : model.normalizationParams.getD i { min := nan, max := nan } =
      { min := fin mn, max := fin mx })
    (hlt : mn < mx) :
    predictNormalizeFeature model i (fin v) =
      fin (max 0 (min 1 ((max mn (min mx v) - mn) / (mx - mn)))) ∧
    0 ≤ max 0 (min 1 ((max mn (min mx v) - mn) / (mx - mn))) ∧
    max 0 (min 1 ((max mn (min mx v) - mn) / (mx - mn))) ≤ 1 := by
  refine ⟨?_, le_max_left _ _, max_le (by norm_num) (min_le_left _ _)⟩
  have hne : mn ≠ mx := ne_of_lt hlt
  have hd : mx + -mn ≠ 0 := by intro h0; apply hne; linarith
  have hp2 := hp
  rw [List.getD_eq_getElem?_getD] at hp2
  simp [predictNormalizeFeature, hi, hp, hp2, normalizeFeatures, hne, hd,
    sub_eq_add_neg]

/-- Witness for C3 at a concrete input: bounds 0 < 2 and the out-of-range
value 5 give the clamped normalized value. -/
theorem predictNormalizeFeature_clamped_witness :
    predictNormalizeFeature
        { theta := [], normalizationParams :=
          [{ min := fin 0, max := fin 0 }, { min := fin 0, max := fin 2 }] } 1 (fin 5) =
      fin (max 0 (min 1 ((max 0 (min 2 5) - 0) / (2 - 0)))) ∧
    (0 : ℝ) ≤ max 0 (min 1 ((max 0 (min 2 5) - 0) / (2 - 0))) ∧
    max 0 (min 1 ((max 0 (min 2 (5 : ℝ)) - 0) / (2 - 0))) ≤ 1 :=
  predictNormalizeFeature_clamped
    { theta := [], normalizationParams :=
      [{ min := fin 0, max := fin 0 }, { min := fin 0, max := fin 2 }] }
    1 5 0 2 (by norm_num) (by simp) (by norm_num)

/-- Setting a list element commutes with numbering the list from n. -/
theorem enumFrom_set {α : Type _} (a : α) :
    ∀ (l : List α) (i n : Nat),
      List.enumFrom n (l.set i a) = (List.enumFrom n l).set i (n + i, a) := by
  intro l
  induction l with
  | nil => intro i n; simp
  | cons x xs ih =>
    intro i n
    cases i with
    | zero => simp [List.set, List.enumFrom]
    | succ j =>
      have h1 : n + (j + 1) = (n + 1) + j := by omega
      simp only [List.set, List.enumFrom, List.set_cons_succ, h1, ih j (n + 1)]

/-- Setting a list element commutes with enum. -/
theorem enum_set {α : Type _} (a : α) (l : List α) (i : Nat) :
    (l.set i a).enum = l.enum.set i (i, a) := by
  have h := enumFrom_set a l i 0
  simpa [List.enum] using h

/-- C6: predict is invariant to out-of-range inputs beyond the stored max:
replacing a feature value (index at least 1) that lies at or above the
stored max for that index by any larger value leaves the whole prediction
(probability and direction) unchanged. -/
theorem predict_invariant_above_max (features : List JsNum) (model : Model)
    (i : Nat) (M v w : ℝ) (hi : i ≠ 0)
    (hmax : (model.normalizationParams.getD i { min := nan, max := nan }).max = fin M)
    (hv : M ≤ v) (hw : v ≤ w) :
    predict (features.set i (fin w)) model = predict (features.set i (fin v)) model := by
  have hfeat : predictNormalizeFeature model i (fin w)
      = predictNormalizeFeature model i (fin v) := by
    unfold predictNormalizeFeature
    rw [if_neg hi]
    rw [if_neg hi]
    simp only [isNaN_fin, Bool.false_eq_true, if_false]
    rw [hmax, min2_fin_fin, min2_fin_fin,
      min_eq_left (le_trans hv hw), min_eq_left hv]
  have hkey : predictNormalized (features.set i (fin w)) model
      = predictNormalized (features.set i (fin v)) model := by
    unfold predictNormalized
    rw [enum_set, enum_set, List.map_set, List.map_set, hfeat]
  unfold predict predictZ
  rw [hkey]

/-- Witness for C6 at a concrete input: feeding 1002 instead of 2 beyond the
stored max 2 yields the same prediction. -/
theorem predict_invariant_above_max_witness :
    predict ([fin 1, fin 0].set 1 (fin 1002))
        { theta := [fin 1, fin 1], normalizationParams :=
          [{ min := fin 0, max := fin 1 }, { min := fin 0, max := fin 2 }] } =
      predict ([fin 1, fin 0].set 1 (fin 2))
        { theta := [fin 1, fin 1], normalizationParams :=
          [{ min := fin 0, max := fin 1 }, { min := fin 0, max := fin 2 }] } :=
  predict_invariant_above_max [fin 1, fin 0] _ 1 2 2 1002 (by norm_num) rfl
    (by norm_num) (by norm_num)

/-- The real logistic function, for stating specifications about finite
values. -/
noncomputable def sigmoidR (z : ℝ) : ℝ := 1 / (1 + Real.exp (-z))

theorem one_add_exp_pos (x : ℝ) : 0 < 1 + Real.exp x := by
  have := Real.exp_pos x
  linarith

theorem sigmoid_fin (z : ℝ) : sigmoid (fin z) = fin (sigmoidR z) := by
  have h := one_add_exp_pos (-z)
  simp [sigmoid, sigmoidR, ne_of_gt h]

theorem sigmoidR_pos (z : ℝ) : 0 < sigmoidR z := by
  have h := one_add_exp_pos (-z)
  exact div_pos one_pos h

theorem sigmoidR_lt_one (z : ℝ) : sigmoidR z < 1 := by
  have h := one_add_exp_pos (-z)
  have he := Real.exp_pos (-z)
  rw [sigmoidR, div_lt_one h]
  linarith

theorem clamp_sigmoidR (z : ℝ) : max 0 (min 1 (sigmoidR z)) = sigmoidR z := by
  rw [min_eq_right (sigmoidR_lt_one z).le, max_eq_right (sigmoidR_pos z).le]

/-- C9: whenever the weighted sum inside predict is a finite real z, predict
returns as probability the rounding of clamp(sigmoid(z), 0, 1) times 100, an
integer between 0 and 100 inclusive, and the direction Up exactly when
sigmoid(z) is at least one half, Down otherwise. -/
theorem predict_probability_round (features : List JsNum) (model : Model) (z : ℝ)
    (hz : predictZ features model = fin z) :
    predict features model =
      { probability := fin ((round (max 0 (min 1 (sigmoidR z)) * 100) : ℤ) : ℝ)
        prediction := if 1 / 2 ≤ sigmoidR z then Direction.up else Direction.down } ∧
    0 ≤ round (max 0 (min 1 (sigmoidR z)) * 100) ∧
    round (max 0 (min 1 (sigmoidR z)) * 100) ≤ 100 := by
  have hc := clamp_sigmoidR z
  have h0 := (sigmoidR_pos z).le
  have h1 := (sigmoidR_lt_one z).le
  refine ⟨?_, ?_, ?_⟩
  · simp only [predict]
    rw [hz, sigmoid_fin]
    simp only [min2_fin_fin, max2_fin_fin, hc, mul_fin_fin, rnd_fin, geb_fin_fin]
    by_cases hge : 1 / 2 ≤ sigmoidR z <;> simp [hge]
  · rw [hc, round_eq]
    have : (0 : ℝ) ≤ sigmoidR z * 100 + 1 / 2 := by nlinarith
    exact_mod_cast Int.le_floor.mpr (by exact_mod_cast this)
  · rw [hc, round_eq]
    have hlt : sigmoidR z * 100 + 1 / 2 < ((101 : ℤ) : ℝ) := by push_cast; nlinarith
    have := Int.floor_lt.mpr hlt
    omega

/-- Witness for C9 at a concrete input: the all-zero model on the bias-only
feature vector has weighted sum 0. -/
theorem predict_probability_round_witness :
    predict [fin 1] { theta := [fin 0], normalizationParams :=
        [{ min := fin 0, max := fin 0 }] } =
      { probability := fin ((round (max 0 (min 1 (sigmoidR 0)) * 100) : ℤ) : ℝ)
        prediction := if 1 / 2 ≤ sigmoidR 0 then Direction.up else Direction.down } ∧
    0 ≤ round (max 0 (min 1 (sigmoidR 0)) * 100) ∧
    round (max 0 (min 1 (sigmoidR 0)) * 100) ≤ 100 :=
  predict_probability_round [fin 1]
    { theta := [fin 0], normalizationParams := [{ min := fin 0, max := fin 0 }] } 0
    (by
      simp [predictZ, predictNormalized, predictNormalizeFeature, weightedSum,
        weightedSumFrom])

/-- A concrete model whose only weight is -1/100: its weighted sum on the
bias-only feature vector sits just below the direction threshold. -/
noncomputable def fiftyDownModel : Model :=
  { theta := [fin (-1 / 100)], normalizationParams := [{ min := fin 0, max := fin 0 }] }

/-- C10: a model and feature vector on which predict reports the displayed
probability 50 together with direction Down: the weighted sum is -1/100,
whose sigmoid lies just below one half, so it rounds to 50 while the
direction test fails. -/
theorem predict_fifty_down_exists :
    predict [fin 1] fiftyDownModel =
      { probability := fin 50, prediction := Direction.down } := by
  have hz : predictZ [fin 1] fiftyDownModel = fin (-1 / 100) := by
    simp [predictZ, predictNormalized, predictNormalizeFeature, weightedSum,
      weightedSumFrom, fiftyDownModel]
  have hE1 : 1 + 1 / 100 ≤ Real.exp (1 / 100) := by
    have := Real.add_one_le_exp (1 / 100 : ℝ)
    linarith
  have hEpos : (0 : ℝ) < Real.exp (1 / 100) := Real.exp_pos _
  have hE2 : Real.exp (1 / 100) ≤ 100 / 99 := by
    have hneg := Real.add_one_le_exp (-(1 / 100) : ℝ)
    have hnegpos : (0 : ℝ) < Real.exp (-(1 / 100)) := Real.exp_pos _
    have hrec : Real.exp (-(1 / 100) : ℝ) = (Real.exp (1 / 100))⁻¹ := Real.exp_neg _
    rw [hrec] at hneg hnegpos
    rw [show (100 : ℝ) / 99 = ((99 / 100 : ℝ))⁻¹ by norm_num]
    rw [← inv_inv (Real.exp (1 / 100))]
    exact inv_le_inv_of_le (by norm_num) (by linarith)
  set p : ℝ := sigmoidR (-1 / 100) with hp
  have hpval : p = 1 / (1 + Real.exp (1 / 100)) := by
    rw [hp, sigmoidR]
    norm_num
  have hplow : 99 / 199 ≤ p := by
    rw [hpval]
    rw [show (99 : ℝ) / 199 = 1 / (199 / 99) by norm_num]
    exact one_div_le_one_div_of_le (by linarith) (by linarith)
  have hphigh : p < 1 / 2 := by
    rw [hpval]
    have h2 : (2 : ℝ) < 1 + Real.exp (1 / 100) := by linarith
    exact one_div_lt_one_div_of_lt (by norm_num) h2
  simp only [predict]
  rw [hz, sigmoid_fin]
  have hc : max 0 (min 1 p) = p := clamp_sigmoidR (-1 / 100)
  simp only [min2_fin_fin, max2_fin_fin, ← hp, hc, mul_fin_fin, rnd_fin, geb_fin_fin]
  have hround : round (p * 100) = 50 := by
    rw [round_eq]
    rw [Int.floor_eq_iff]
    constructor
    · push_cast
      nlinarith
    · push_cast
      nlinarith
  rw [hround]
  have hnotge : ¬(1 / 2 ≤ p) := not_le.mpr hphigh
  simp [hnotge]
  linarith

/-- Real dot product of a feature row against a weight vector, for stating
the gradient specification. -/
def dotR (x t : List ℝ) : ℝ := (List.zipWith (fun a b => a * b) x t).sum

theorem dotR_nil (t : List ℝ) : dotR [] t = 0 := by simp [dotR]

theorem dotR_cons (x : ℝ) (xs : List ℝ) (y : ℝ) (ys : List ℝ) :
    dotR (x :: xs) (y :: ys) = x * y + dotR xs ys := by simp [dotR]

theorem getD_map_fin (t : List ℝ) (j : Nat) (h : j < t.length) :
    (t.map fin).getD j nan = fin (t.getD j 0) := by
  rw [List.getD_eq_getElem?_getD, List.getD_eq_getElem?_getD, List.getElem?_map,
    List.getElem?_eq_getElem h]
  rfl

theorem weightedSumFrom_fin (t : List ℝ) :
    ∀ (r : List ℝ) (j : Nat) (a : ℝ), j + r.length ≤ t.length →
      weightedSumFrom (t.map fin) (r.map fin) j (fin a) = fin (a + dotR r (t.drop j)) := by
  intro r
  induction r with
  | nil => intro j a h; simp [weightedSumFrom, dotR_nil]
  | cons x xs ih =>
    intro j a h
    have hj : j < t.length := by simp only [List.length_cons] at h; omega
    have hdrop : t.drop j = t.getD j 0 :: t.drop (j + 1) := by
      rw [List.getD_eq_getElem t 0 hj]
      exact (List.getElem_cons_drop t j hj).symm
    simp only [List.map_cons, weightedSumFrom, getD_map_fin t j hj, mul_fin_fin,
      add_fin_fin]
    rw [ih (j + 1) (a + x * t.getD j 0)
      (by simp only [List.length_cons] at h; omega)]
    rw [hdrop, dotR_cons]
    ring_nf

theorem weightedSum_fin (r t : List ℝ) (h : r.length ≤ t.length) :
    weightedSum (r.map fin) (t.map fin) = fin (dotR r t) := by
  have h0 := weightedSumFrom_fin t r 0 0 (by omega)
  simpa [weightedSum] using h0

theorem map_sigmoid_fin (Xr : List (List ℝ)) (tr : List ℝ)
    (hrow : ∀ r ∈ Xr, r.length ≤ tr.length) :
    (Xr.map (fun r => r.map fin)).map (fun x => sigmoid (weightedSum x (tr.map fin)))
      = (Xr.map (fun r => sigmoidR (dotR r tr))).map fin := by
  rw [List.map_map, List.map_map]
  apply List.map_congr_left
  intro r hr
  simp only [Function.comp_apply]
  rw [weightedSum_fin r tr (hrow r hr), sigmoid_fin]

theorem gradSumFrom_fin (hs ys : List ℝ) (j : Nat) :
    ∀ (Xs : List (List ℝ)) (i : Nat) (a : ℝ),
      i + Xs.length ≤ hs.length → i + Xs.length ≤ ys.length →
      (∀ r ∈ Xs, j < r.length) →
      gradSumFrom (hs.map fin) (ys.map fin) j (Xs.map (fun r => r.map fin)) i (fin a)
        = fin (a + (List.zipWith (fun hy r => (hy.1 - hy.2) * r.getD j 0)
            ((hs.drop i).zip (ys.drop i)) Xs).sum) := by
  intro Xs
  induction Xs with
  | nil => intro i a h1 h2 h3; simp [gradSumFrom]
  | cons r rest ih =>
    intro i a h1 h2 h3
    have hi1 : i < hs.length := by simp only [List.length_cons] at h1; omega
    have hi2 : i < ys.length := by simp only [List.length_cons] at h2; omega
    have hjr : j < r.length := h3 r (List.mem_cons_self r rest)
    have hdrop1 : hs.drop i = hs.getD i 0 :: hs.drop (i + 1) := by
      rw [List.getD_eq_getElem hs 0 hi1]
      exact (List.getElem_cons_drop hs i hi1).symm
    have hdrop2 : ys.drop i = ys.getD i 0 :: ys.drop (i + 1) := by
      rw [List.getD_eq_getElem ys 0 hi2]
      exact (List.getElem_cons_drop ys i hi2).symm
    simp only [List.map_cons, gradSumFrom, getD_map_fin hs i hi1,
      getD_map_fin ys i hi2, getD_map_fin r j hjr, sub_fin_fin, mul_fin_fin,
      add_fin_fin]
    rw [ih (i + 1) (a + (hs.getD i 0 + -ys.getD i 0) * r.getD j 0)
      (by simp only [List.length_cons] at h1; omega)
      (by simp only [List.length_cons] at h2; omega)
      (fun q hq => h3 q (List.mem_cons_of_mem r hq))]
    rw [hdrop1, hdrop2, List.zip_cons_cons]
    simp only [List.zipWith_cons_cons, List.sum_cons]
    congr 1
    ring

theorem zipWith_zip_left (g : List ℝ → ℝ) (F : ℝ → ℝ → List ℝ → ℝ) :
    ∀ (Xs : List (List ℝ)) (ys : List ℝ),
      List.zipWith (fun hy r => F hy.1 hy.2 r) ((Xs.map g).zip ys) Xs
        = List.zipWith (fun r yi => F (g r) yi r) Xs ys := by
  intro Xs
  induction Xs with
  | nil => intro ys; simp
  | cons r rest ih =>
    intro ys
    cases ys with
    | nil => simp
    | cons y ys2 => simp [ih ys2]

/-- C4: in every gradient-descent iteration of trainModel, the per-weight
gradient at index j over finite real inputs is exactly the average over all
examples of (prediction minus label) times feature j, with the L2 term
lambda / m times theta j added for every index except 0; and the weight
update replaces theta j by theta j minus learningRate times gradient j,
for all j simultaneously from the same old weight vector. -/
theorem calculateGradient_batch_update (Xr : List (List ℝ)) (yr tr : List ℝ)
    (mr lamr : ℝ) (lr : JsNum) (g : List JsNum) (j : Nat)
    (hrow : ∀ r ∈ Xr, r.length = tr.length)
    (hm : Xr.length = yr.length)
    (hmr : mr ≠ 0) (hj : j < tr.length) :
    (calculateGradient (Xr.map (fun r => r.map fin)) (yr.map fin) (tr.map fin)
        (fin mr) (fin lamr))[j]? =
      some (fin (1 / mr *
        (List.zipWith (fun r yi => (sigmoidR (dotR r tr) - yi) * r.getD j 0) Xr yr).sum
        + if j = 0 then 0 else lamr / mr * tr.getD j 0)) ∧
    (updateTheta lr (tr.map fin) g)[j]? =
      some (sub (fin (tr.getD j 0)) (mul lr (g.getD j nan))) := by
  have hjm : j < (tr.map fin).length := by simpa using hj
  have htj : (tr.map fin)[j] = fin (tr.getD j 0) := by
    rw [List.getD_eq_getElem tr 0 hj]
    simp
  constructor
  · unfold calculateGradient
    rw [map_sigmoid_fin Xr tr (fun r hr => (hrow r hr).le)]
    rw [List.getElem?_map, List.getElem?_enum, List.getElem?_eq_getElem hjm]
    simp only [Option.map_some', Option.map_map, Function.comp_apply]
    have hsum := gradSumFrom_fin (Xr.map (fun r => sigmoidR (dotR r tr))) yr j
      Xr 0 0 (by simp) (by omega) (fun r hr => by rw [hrow r hr]; exact hj)
    simp only [List.drop_zero] at hsum
    rw [hsum, zipWith_zip_left (fun r => sigmoidR (dotR r tr))
      (fun h y r => (h - y) * r.getD j 0) Xr yr]
    rw [div_fin_fin_of_ne 1 mr hmr, mul_fin_fin]
    by_cases hj0 : j = 0
    · simp [hj0]
    · simp only [hj0, if_false, getD_map_fin tr j hj,
        div_fin_fin_of_ne lamr mr hmr, mul_fin_fin, add_fin_fin]
      norm_num
  · unfold updateTheta
    rw [List.getElem?_map, List.getElem?_enum, List.getElem?_eq_getElem hjm]
    simp only [Option.map_some', Option.map_map, Function.comp_apply, htj]

/-- Witness for C4 at a concrete input: a 2-example, 2-feature training set
with nonzero regularization index. -/
theorem calculateGradient_batch_update_witness :
    (calculateGradient ([[1, 2], [1, 3]].map (fun r => r.map fin))
        ([1, 0].map fin) ([1, 1].map fin) (fin 2) (fin (1 / 100)))[1]? =
      some (fin (1 / 2 *
        (List.zipWith (fun r yi => (sigmoidR (dotR r [1, 1]) - yi) * r.getD 1 0)
          [[1, 2], [1, 3]] [1, 0]).sum
        + if 1 = 0 then 0 else (1 / 100) / 2 * List.getD [1, 1] 1 0)) ∧
    (updateTheta (fin 1) ([1, 1].map fin) [fin 0, fin 0])[1]? =
      some (sub (fin (List.getD [1, 1] 1 0)) (mul (fin 1) (List.getD [fin 0, fin 0] 1 nan))) :=
  calculateGradient_batch_update [[1, 2], [1, 3]] [1, 0] [1, 1] 2 (1 / 100)
    (fin 1) [fin 0, fin 0] 1
    (by
      intro r hr
      simp only [List.mem_cons, List.not_mem_nil, or_false] at hr
      rcases hr with rfl | rfl <;> rfl)
    rfl (by norm_num) (by norm_num)

/-- The seven-observation scenario of the specification: steadily rising
prices d1 to d6, then a fall to 95 on d7, constant volume. -/
noncomputable def exampleData : List StockData :=
  [{ date := "d1", price := fin 100, volume := fin 1000 },
   { date := "d2", price := fin 101, volume := fin 1000 },
   { date := "d3", price := fin 102, volume := fin 1000 },
   { date := "d4", price := fin 103, volume := fin 1000 },
   { date := "d5", price := fin 104, volume := fin 1000 },
   { date := "d6", price := fin 110, volume := fin 1000 },
   { date := "d7", price := fin 95, volume := fin 1000 }]

/-- C8: on the seven-observation scenario the extraction loop produces
exactly one training example, built from the d1-to-d5 window (average price
102, price change 110 - 104 = 6 against d5, average volume 1000) with d6 as
current day, and its label is 0 because the price fell from 110 on d6 to 95
on d7. -/
theorem extractExamples_scenario :
    extractExamples exampleData =
      ([[fin 1, fin 102, fin 1000, fin 6, fin 0, fin (75 / 13), fin 0,
        fin (Real.sqrt 2), fin 1, fin (-1)]], [fin 0]) := by
  have hstep : extractStep exampleData 5 =
      some ([fin 1, fin 102, fin 1000, fin 6, fin 0, fin (75 / 13), fin 0,
        fin (Real.sqrt 2), fin 1, fin (-1)], fin 0) := by
    norm_num [extractStep, buildExample, exampleData, trendReduce,
      trendReduceFrom, JsNum.div, JsNum.mul, JsNum.sqrt]
  have hlen : exampleData.length = 7 := rfl
  simp [extractExamples, hlen, List.range', hstep]

/-- Seven observations whose fifth day has price exactly 0 while the sixth
has price 5: the percent-change feature divides a nonzero change by a zero
prior price. -/
noncomputable def zeroPriorData : List StockData :=
  [{ date := "d1", price := fin 1, volume := fin 1000 },
   { date := "d2", price := fin 1, volume := fin 1000 },
   { date := "d3", price := fin 1, volume := fin 1000 },
   { date := "d4", price := fin 1, volume := fin 1000 },
   { date := "d5", price := fin 0, volume := fin 1000 },
   { date := "d6", price := fin 5, volume := fin 1000 },
   { date := "d7", price := fin 6, volume := fin 1000 }]

/-- C2 counterexample: on data whose window-final (prior) price is zero, the
division 5 / 0 yields Infinity, not NaN, so the NaN skip check does not
fire: the example is NOT discarded but included in the training set, with
the infinite percent-change value at index 5 of the feature vector. -/
theorem extract_zero_prior_price_kept :
    zeroPriorData[4]?.map StockData.price = some (fin 0) ∧
    extractExamples zeroPriorData =
      ([[fin 1, fin (4 / 5), fin 1000, fin 5, fin 0, inf, fin 0,
        fin (Real.sqrt 4 / Real.sqrt 25), fin (-1), fin (-1)]], [fin 1]) := by
  constructor
  · rfl
  · have hstep : extractStep zeroPriorData 5 =
        some ([fin 1, fin (4 / 5), fin 1000, fin 5, fin 0, inf, fin 0,
          fin (Real.sqrt 4 / Real.sqrt 25), fin (-1), fin (-1)], fin 1) := by
      norm_num [extractStep, buildExample, zeroPriorData, trendReduce,
        trendReduceFrom, JsNum.div, JsNum.mul, JsNum.sqrt]
    have hlen : zeroPriorData.length = 7 := rfl
    simp [extractExamples, hlen, List.range', hstep]

/-- C2 (amended): an example is discarded exactly by the NaN check, and a
zero prior price produces a NaN percent change only when the price change is
also zero (0 / 0); in that case the example is discarded entirely. -/
theorem buildExample_zero_over_zero_discarded (last5Days : List StockData)
    (currentDay nextDay day4 : StockData)
    (h4 : last5Days.get? 4 = some day4)
    (hp : day4.price = fin 0) (hc : currentDay.price = fin 0) :
    buildExample last5Days currentDay nextDay = none := by
  simp only [buildExample, h4, hp, hc, sub_fin_fin]
  norm_num [JsNum.div, JsNum.mul]

/-- Witness for the amended C2 at a concrete input: prior price 0 and
current price 0 give a 0 / 0 percent change and the example is dropped. -/
theorem buildExample_zero_over_zero_discarded_witness :
    buildExample
      [{ date := "d1", price := fin 1, volume := fin 1000 },
       { date := "d2", price := fin 1, volume := fin 1000 },
       { date := "d3", price := fin 1, volume := fin 1000 },
       { date := "d4", price := fin 1, volume := fin 1000 },
       { date := "d5", price := fin 0, volume := fin 1000 }]
      { date := "d6", price := fin 0, volume := fin 1000 }
      { date := "d7", price := fin 6, volume := fin 1000 } = none :=
  buildExample_zero_over_zero_discarded _ _ _
    { date := "d5", price := fin 0, volume := fin 1000 } rfl rfl rfl
